import Mathlib

/-!
# Verification of the booking-upload application (`src/app.py`)

A shallow embedding of the Flask application in `src/app.py`, together with
theorems settling the specification claims about it.

Modelling conventions:

* Spreadsheet cell values are the tagged variant `CellValue`
  (`missing` / `num` / `text` / `date`), following the dynamic types a
  pandas row actually holds: NaN for empty cells, numbers, strings, and
  timestamps.  Numeric cells are modelled as integers (the claims only
  concern integral day-counts; Python's `int(value)` is the identity there).
* Python library functions used by the source (`datetime.toordinal`,
  `datetime.fromordinal`, `str.strip`, `str.lower`, `int(...)`,
  `pd.isna`, `str(...)`) are modelled by executable Lean functions that
  follow their documented behaviour; in particular `fromordinal` is
  CPython's 400/100/4-year decomposition and `toordinal` the usual
  proleptic-Gregorian day count, with validity range 1 .. 3652059
  (= `date.max.toordinal()`).
* Python exceptions are `PyErr` values returned in `Except`; the global
  mutable state (`_records`, `_record_id_counter`) is the explicit
  `AppState` threaded through `upload` / `toggle`.
-/

/-! ## Calendar arithmetic (model of `datetime.date` ordinals) -/

/-- Gregorian leap-year test, as `calendar.isleap`. -/
def isLeap (y : Nat) : Bool :=
  y % 4 == 0 && (y % 100 != 0 || y % 400 == 0)

/-- Days in the year strictly before month `m` (1-based); `m = 13` gives the
year length.  The leap day is added for months past February. -/
def daysBeforeMonth (leap : Bool) (m : Nat) : Nat :=
  (match m with
   | 1 => 0 | 2 => 31 | 3 => 59 | 4 => 90 | 5 => 120 | 6 => 151
   | 7 => 181 | 8 => 212 | 9 => 243 | 10 => 273 | 11 => 304 | 12 => 334
   | _ => 365)
  + (if leap && 2 < m then 1 else 0)

/-- Days strictly before January 1 of year `y` (proleptic Gregorian). -/
def daysBeforeYear (y : Nat) : Nat :=
  (y - 1) * 365 + (y - 1) / 4 - (y - 1) / 100 + (y - 1) / 400

/-- Model of `datetime.date.toordinal`: day number of `y-m-d` counting
0001-01-01 as day 1. -/
def toordinal (y m d : Nat) : Nat :=
  daysBeforeYear y + daysBeforeMonth (isLeap y) m + d

/-- Number of days in month `m` of a year with leap flag `leap`. -/
def daysInMonth (leap : Bool) (m : Nat) : Nat :=
  daysBeforeMonth leap (m + 1) - daysBeforeMonth leap m

/-- Predicate: `y-m-d` is a real calendar date. -/
def validDate (y m d : Nat) : Prop :=
  1 ≤ y ∧ 1 ≤ m ∧ m ≤ 12 ∧ 1 ≤ d ∧ d ≤ daysInMonth (isLeap y) m

instance (y m d : Nat) : Decidable (validDate y m d) := by
  unfold validDate; infer_instance

/-- Month and day-of-month for the 0-based day index `r` of a year with leap
flag `leap` (the month search of CPython's `_ord2ymd`). -/
def findMonth (leap : Bool) (r : Nat) : Nat × Nat :=
  if r < daysBeforeMonth leap 2 then (1, r + 1)
  else if r < daysBeforeMonth leap 3 then (2, r - daysBeforeMonth leap 2 + 1)
  else if r < daysBeforeMonth leap 4 then (3, r - daysBeforeMonth leap 3 + 1)
  else if r < daysBeforeMonth leap 5 then (4, r - daysBeforeMonth leap 4 + 1)
  else if r < daysBeforeMonth leap 6 then (5, r - daysBeforeMonth leap 5 + 1)
  else if r < daysBeforeMonth leap 7 then (6, r - daysBeforeMonth leap 6 + 1)
  else if r < daysBeforeMonth leap 8 then (7, r - daysBeforeMonth leap 7 + 1)
  else if r < daysBeforeMonth leap 9 then (8, r - daysBeforeMonth leap 8 + 1)
  else if r < daysBeforeMonth leap 10 then (9, r - daysBeforeMonth leap 9 + 1)
  else if r < daysBeforeMonth leap 11 then (10, r - daysBeforeMonth leap 10 + 1)
  else if r < daysBeforeMonth leap 12 then (11, r - daysBeforeMonth leap 11 + 1)
  else (12, r - daysBeforeMonth leap 12 + 1)

/-- Ordinal → `(year, month, day)`, CPython's `_ord2ymd` decomposition into
400-, 100-, 4- and 1-year cycles (meaningful for `1 ≤ n ≤ 3652059`). -/
def ord2ymd (n : Nat) : Nat × Nat × Nat :=
  let n0 := n - 1
  let n400 := n0 / 146097
  let r1 := n0 % 146097
  let n100 := r1 / 36524
  let r2 := r1 % 36524
  let n4 := r2 / 1461
  let r3 := r2 % 1461
  let n1 := r3 / 365
  let r4 := r3 % 365
  let year := n400 * 400 + n100 * 100 + n4 * 4 + n1 + 1
  if n1 = 4 ∨ n100 = 4 then (year - 1, 12, 31)
  else
    let md := findMonth (isLeap year) r4
    (year, md.1, md.2)

/-- The constant `datetime.max.toordinal()`: the largest ordinal `fromordinal` accepts. -/
def MAXORDINAL : Nat := toordinal 9999 12 31

/-- Model of `datetime.fromordinal`: `none` models the `ValueError` /
`OverflowError` raised outside the supported range. -/
def fromordinal (n : Int) : Option (Nat × Nat × Nat) :=
  if 1 ≤ n ∧ n ≤ (MAXORDINAL : Int) then some (ord2ymd n.toNat) else none

/-- Decimal rendering padded to 2 digits (strftime `%d` / `%m`). -/
def pad2 (n : Nat) : String :=
  if n < 10 then "0" ++ toString n else toString n

/-- Decimal rendering padded to 4 digits (strftime `%Y`). -/
def pad4 (n : Nat) : String :=
  if n < 10 then "000" ++ toString n
  else if n < 100 then "00" ++ toString n
  else if n < 1000 then "0" ++ toString n
  else toString n

/-- Model of `strftime("%d/%m/%Y")` on a date. -/
def fmtDMY (y m d : Nat) : String :=
  pad2 d ++ "/" ++ pad2 m ++ "/" ++ pad4 y

/-! ## Cell values and Python primitives -/

/-- The dynamic value held by one spreadsheet cell after `pd.read_excel`:
an empty cell (NaN), a number (modelled as an integer), a string, or a
timestamp `y-m-d` plus `t` seconds of time-of-day. -/
inductive CellValue where
  | missing
  | num (n : Int)
  | text (s : String)
  | date (y m d t : Nat)
deriving DecidableEq, Repr

/-- Model of `pd.isna` on a cell value. -/
def pd_isna : CellValue → Bool
  | .missing => true
  | _ => false

/-- Model of `str.lower` (ASCII; the recognized headers are ASCII). -/
def pyLower (s : String) : String := ⟨s.data.map Char.toLower⟩

/-- Model of `str.strip()`: drop leading and trailing whitespace. -/
def pyStrip (s : String) : String :=
  ⟨((s.data.dropWhile Char.isWhitespace).reverse.dropWhile Char.isWhitespace).reverse⟩

/-- Model of `col.lower().strip()`, the header normalization of `_normalize_columns`. -/
def normHeader (c : String) : String := pyStrip (pyLower c)

/-- Value of a nonempty digit string. -/
def digitsVal (l : List Char) : Nat :=
  l.foldl (fun a c => a * 10 + (c.toNat - 48)) 0

/-- Model of Python `int(s)` on a string: optional sign and decimal digits
after stripping surrounding whitespace; `none` models the `ValueError`. -/
def parseIntText (s : String) : Option Int :=
  match (pyStrip s).data with
  | [] => none
  | c :: cs =>
    if c = '-' then
      if cs ≠ [] ∧ cs.all Char.isDigit then some (-(digitsVal cs : Int)) else none
    else if c = '+' then
      if cs ≠ [] ∧ cs.all Char.isDigit then some ((digitsVal cs : Int)) else none
    else if (c :: cs).all Char.isDigit then some ((digitsVal (c :: cs) : Int))
    else none

/-- A Python exception value: the class (`ValueError` vs `TypeError`)
matters because `upload` catches only `ValueError`. -/
inductive PyErr where
  | valueError (msg : String)
  | typeError (msg : String)
deriving DecidableEq, Repr

/-- Model of Python `str(value)` on a cell value: NaN prints as `"nan"`,
numbers by their decimal representation, timestamps as
`YYYY-MM-DD HH:MM:SS`. -/
def pyStr : CellValue → String
  | .missing => "nan"
  | .num n => toString n
  | .text s => s
  | .date y m d t =>
      pad4 y ++ "-" ++ pad2 m ++ "-" ++ pad2 d ++ " " ++
      pad2 (t / 3600) ++ ":" ++ pad2 (t % 3600 / 60) ++ ":" ++ pad2 (t % 60)

/-- Model of Python `int(value)` on a cell value: numbers convert,
numeric strings parse (`ValueError` otherwise), timestamps raise
`TypeError`, NaN raises `ValueError`. -/
def pyInt : CellValue → Except PyErr Int
  | .missing => .error (.valueError "cannot convert float NaN to integer")
  | .num n => .ok n
  | .text s =>
      match parseIntText s with
      | some n => .ok n
      | none => .error (.valueError "invalid literal for int with base 10")
  | .date _ _ _ _ => .error (.typeError "cannot convert the series to int")

/-! ## `_format_checkout` (src/app.py lines 41-52) -/

/-- Shallow embedding of `_format_checkout`:

* `pd.isna(value)` → `""`;
* `pd.Timestamp` / `datetime` → `value.strftime("%d/%m/%Y")`;
* `int` / `float` →
  `datetime.fromordinal(datetime(1899, 12, 30).toordinal() + int(value))`
  rendered the same way, falling back to `str(value)` when `fromordinal`
  raises;
* anything else → `str(value)`. -/
def _format_checkout : CellValue → String
  | .missing => ""
  | .date y m d _ => fmtDMY y m d
  | .num n =>
      match fromordinal ((toordinal 1899 12 30 : Int) + n) with
      | some (y, m, d) => fmtDMY y m d
      | none => toString n
  | .text s => s

/-- The day-count `n` denotes a representable date: adding it to the epoch
ordinal lands inside `datetime.fromordinal`'s supported range (otherwise
the source's `except` branch fires). -/
def representable (n : Int) : Prop :=
  1 ≤ (toordinal 1899 12 30 : Int) + n ∧
  (toordinal 1899 12 30 : Int) + n ≤ (MAXORDINAL : Int)

instance (n : Int) : Decidable (representable n) := by
  unfold representable; infer_instance

/-! ## DataFrame, column resolver (src/app.py lines 19-38) -/

/-- A parsed table: column labels plus rows of cells, each row aligned
positionally with `cols`. -/
structure DF where
  cols : List String
  rows : List (List CellValue)
deriving DecidableEq, Repr

/-- The four recognized header labels and the canonical (Spanish) field
names they map to: `REQUIRED_COLUMNS` of src/app.py. -/
def REQUIRED_COLUMNS : List (String × String) :=
  [("room number", "habitacion"),
   ("number of persons", "personas"),
   ("day of check out", "salida"),
   ("half-board included?", "media_pension")]

/-- The dict `normalized = {col.lower().strip(): col for col in df.columns}` looked
up at `key`: the last column whose normalization is `key` (a later duplicate
key overwrites an earlier one in a dict comprehension). -/
def normalizedMap (cols : List String) (key : String) : Option String :=
  (cols.filter (fun c => normHeader c == key)).getLast?

/-- The dict `rename_map = {normalized[key]: key for key in REQUIRED_COLUMNS}`
applied to one column label (labels not in the map are kept). -/
def renameCol (cols : List String) (c : String) : String :=
  match REQUIRED_COLUMNS.find? (fun kv => normalizedMap cols kv.1 == some c) with
  | some kv => kv.1
  | none => c

/-- Shallow embedding of `_normalize_columns`: fail with the
missing-columns `ValueError` when some required key has no matching header,
otherwise rename the matching headers to the canonical keys. -/
def _normalize_columns (df : DF) : Except PyErr DF :=
  let missing := REQUIRED_COLUMNS.filter (fun kv => (normalizedMap df.cols kv.1).isNone)
  if missing.isEmpty then
    .ok ⟨df.cols.map (renameCol df.cols), df.rows⟩
  else
    .error (.valueError
      ("Faltan las siguientes columnas en el archivo: "
        ++ String.intercalate ", " (missing.map (fun kv => kv.2))))

/-- Cell of a row under column label `c` (first matching label, as pandas
label lookup); total with `missing` standing for the out-of-table case. -/
def getCell (cols : List String) (row : List CellValue) (c : String) : CellValue :=
  match cols.indexOf? c with
  | some i => row.getD i .missing
  | none => .missing

/-- Projection `df = df[list(REQUIRED_COLUMNS.keys())]`: keep exactly the four
canonical columns, in `REQUIRED_COLUMNS` order, preserving rows. -/
def project (df : DF) : DF :=
  ⟨REQUIRED_COLUMNS.map (fun kv => kv.1),
   df.rows.map (fun r => REQUIRED_COLUMNS.map (fun kv => getCell df.cols r kv.1))⟩

/-! ## Booking records and the record builder (src/app.py lines 55-80) -/

/-- The `personas` field of a stored record: the source stores either an
`int` or the empty string (the "absent" marker). -/
inductive OccVal where
  | num (n : Int)
  | absent
deriving DecidableEq, Repr

/-- One stored booking record, the dict built in `_parse_file`.  `estado`
is kept as the literal Python string (`"Pendiente"` / `"Ingresó"`) because
`toggle` compares and assigns strings. -/
structure Record where
  id : Nat
  habitacion : String
  personas : OccVal
  salida : String
  media_pension : String
  estado : String
deriving DecidableEq, Repr

/-- The loop body of `_parse_file` on one projected row (cells in
`REQUIRED_COLUMNS` order), given the freshly drawn id.  Only the
`personas` conversion can raise. -/
def buildRecord (rid : Nat) (row : List CellValue) : Except PyErr Record :=
  let personsCell := row.getD 1 .missing
  match (if pd_isna personsCell then .ok .absent else (pyInt personsCell).map .num :
      Except PyErr OccVal) with
  | .error e => .error e
  | .ok occ =>
      .ok { id := rid,
            habitacion := pyStrip (pyStr (row.getD 0 .missing)),
            personas := occ,
            salida := _format_checkout (row.getD 2 .missing),
            media_pension := pyStrip (pyStr (row.getD 3 .missing)),
            estado := "Pendiente" }

/-- The row loop of `_parse_file`: each row first draws
`next(_record_id_counter)` (so the counter advances even for the row whose
conversion then raises), and the first raising row aborts the batch. -/
def buildRows (rows : List (List CellValue)) (ctr : Nat) :
    Except PyErr (List Record) × Nat :=
  match rows with
  | [] => (.ok [], ctr)
  | r :: rs =>
    match buildRecord ctr r with
    | .error e => (.error e, ctr + 1)
    | .ok rec =>
      match buildRows rs (ctr + 1) with
      | (.error e, c') => (.error e, c')
      | (.ok recs, c') => (.ok (rec :: recs), c')

/-- An uploaded file as it looks to `_parse_file`: zero bytes, bytes
`pd.read_excel` cannot parse, or a successfully parsed table. -/
inductive UploadFile where
  | empty
  | unreadable
  | table (df : DF)
deriving DecidableEq, Repr

/-- Shallow embedding of `_parse_file`, threading the process-global
`_record_id_counter` (the next value it will yield). -/
def _parse_file (f : UploadFile) (ctr : Nat) : Except PyErr (List Record) × Nat :=
  match f with
  | .empty => (.error (.valueError "El archivo está vacío."), ctr)
  | .unreadable =>
      (.error (.valueError
        "No se pudo leer el archivo. Asegúrate de que sea un Excel válido."), ctr)
  | .table df =>
    match _normalize_columns df with
    | .error e => (.error e, ctr)
    | .ok df1 => buildRows (project df1).rows ctr

/-! ## The store and the routes (src/app.py lines 14-16, 88-115) -/

/-- The process-global mutable state: `_records` and the next value of
`_record_id_counter` (initialized to `itertools.count(1)`). -/
structure AppState where
  records : List Record
  counter : Nat
deriving DecidableEq, Repr

/-- What the `upload` route did, as observable through the store. -/
inductive UploadResult where
  | noFile
  | failure (e : PyErr)
  | success
deriving DecidableEq, Repr

/-- Shallow embedding of the `upload` route: missing/empty-named file →
no parse at all; a raising `_parse_file` leaves `_records` untouched (the
counter it already advanced stays advanced); success replaces `_records`
wholesale. -/
def upload (file : Option (String × UploadFile)) (st : AppState) :
    AppState × UploadResult :=
  match file with
  | none => (st, .noFile)
  | some (fname, f) =>
    if fname = "" then (st, .noFile)
    else
      match _parse_file f st.counter with
      | (.error e, c') => ({ st with counter := c' }, .failure e)
      | (.ok recs, c') => ({ records := recs, counter := c' }, .success)

/-- Shallow embedding of the `toggle` route body on the records list:
find the first record with the given id and flip its `estado` in place;
report whether a record was found. -/
def toggle (recs : List Record) (rid : Nat) : List Record × Bool :=
  match recs with
  | [] => ([], false)
  | r :: rs =>
    if r.id = rid then
      ({ r with estado := if r.estado = "Pendiente" then "Ingresó" else "Pendiente" }
        :: rs, true)
    else
      let p := toggle rs rid
      (r :: p.1, p.2)

/-- The states the process can actually be in: empty store with counter 1
at start, then any interleaving of uploads and toggles. -/
inductive Reach : AppState → Prop
  | init : Reach ⟨[], 1⟩
  | upload (st st' : AppState) (f : Option (String × UploadFile)) (r : UploadResult) :
      Reach st → upload f st = (st', r) → Reach st'
  | toggle (st : AppState) (rid : Nat) :
      Reach st → Reach ⟨(toggle st.records rid).1, st.counter⟩

theorem isLeap_eq_true_iff (y : Nat) :
    isLeap y = true ↔ (y % 4 = 0 ∧ (y % 100 ≠ 0 ∨ y % 400 = 0)) := by
  simp [isLeap]

set_option maxRecDepth 4000 in
theorem findMonth_correct : ∀ (leap : Bool), ∀ r : Nat, r < 366 →
    (leap = false → r < 365) →
    1 ≤ (findMonth leap r).1 ∧ (findMonth leap r).1 ≤ 12 ∧
    1 ≤ (findMonth leap r).2 ∧
    (findMonth leap r).2 ≤ daysInMonth leap (findMonth leap r).1 ∧
    daysBeforeMonth leap (findMonth leap r).1 + (findMonth leap r).2 = r + 1 := by
  decide

theorem ord_boundary (n a r1 b r2 c r3 e : Nat) (h1 : 1 ≤ n) (h2 : n ≤ 3652059)
    (d1 : n - 1 = 146097 * a + r1) (w1 : r1 < 146097)
    (d2 : r1 = 36524 * b + r2) (w2 : r2 < 36524)
    (d3 : r2 = 1461 * c + r3) (w3 : r3 < 1461)
    (d4 : e = r3 / 365)
    (hcond : e = 4 ∨ b = 4) :
    validDate (a * 400 + b * 100 + c * 4 + e + 1 - 1) 12 31 ∧
    toordinal (a * 400 + b * 100 + c * 4 + e + 1 - 1) 12 31 = n := by
  rcases hcond with he | hb4
  · subst he
    have hr3 : r3 = 1460 := by omega
    have hLeap : isLeap (a * 400 + b * 100 + c * 4 + 4 + 1 - 1) = true := by
      rw [isLeap_eq_true_iff]
      omega
    refine ⟨?_, ?_⟩
    · simp only [validDate, daysInMonth, hLeap,
        show daysBeforeMonth true 13 = 366 from rfl,
        show daysBeforeMonth true 12 = 335 from rfl]
      omega
    · simp only [toordinal, daysBeforeYear, hLeap,
        show daysBeforeMonth true 12 = 335 from rfl]
      rw [show a * 400 + b * 100 + c * 4 + 4 + 1 - 1 - 1 = 400 * a + 100 * b + 4 * c + 3 from by
        omega]
      rw [show (400 * a + 100 * b + 4 * c + 3) / 4 = 100 * a + 25 * b + c from by omega,
          show (400 * a + 100 * b + 4 * c + 3) / 100 = 4 * a + b from by omega,
          show (400 * a + 100 * b + 4 * c + 3) / 400 = a from by omega]
      omega
  · subst hb4
    have hc0 : c = 0 := by omega
    have he0 : e = 0 := by omega
    subst hc0
    subst he0
    have hLeap : isLeap (a * 400 + 4 * 100 + 0 * 4 + 0 + 1 - 1) = true := by
      rw [isLeap_eq_true_iff]
      omega
    refine ⟨?_, ?_⟩
    · simp only [validDate, daysInMonth, hLeap,
        show daysBeforeMonth true 13 = 366 from rfl,
        show daysBeforeMonth true 12 = 335 from rfl]
      omega
    · simp only [toordinal, daysBeforeYear, hLeap,
        show daysBeforeMonth true 12 = 335 from rfl]
      rw [show a * 400 + 4 * 100 + 0 * 4 + 0 + 1 - 1 - 1 = 400 * a + 399 from by omega]
      rw [show (400 * a + 399) / 4 = 100 * a + 99 from by omega,
          show (400 * a + 399) / 100 = 4 * a + 3 from by omega,
          show (400 * a + 399) / 400 = a from by omega]
      omega

theorem ord_main (n a r1 b r2 c r3 e r4 : Nat) (h1 : 1 ≤ n) (h2 : n ≤ 3652059)
    (d1 : n - 1 = 146097 * a + r1) (w1 : r1 < 146097)
    (d2 : r1 = 36524 * b + r2) (w2 : r2 < 36524)
    (d3 : r2 = 1461 * c + r3) (w3 : r3 < 1461)
    (d4 : r3 = 365 * e + r4) (w4 : r4 < 365)
    (hcond : ¬(e = 4 ∨ b = 4)) :
    validDate (a * 400 + b * 100 + c * 4 + e + 1)
      (findMonth (isLeap (a * 400 + b * 100 + c * 4 + e + 1)) r4).1
      (findMonth (isLeap (a * 400 + b * 100 + c * 4 + e + 1)) r4).2 ∧
    toordinal (a * 400 + b * 100 + c * 4 + e + 1)
      (findMonth (isLeap (a * 400 + b * 100 + c * 4 + e + 1)) r4).1
      (findMonth (isLeap (a * 400 + b * 100 + c * 4 + e + 1)) r4).2 = n := by
  push_neg at hcond
  obtain ⟨J1, J2, J3, J4, J5⟩ :=
    findMonth_correct (isLeap (a * 400 + b * 100 + c * 4 + e + 1)) r4
      (by omega) (fun _ => by omega)
  refine ⟨⟨by omega, J1, J2, J3, J4⟩, ?_⟩
  show daysBeforeYear (a * 400 + b * 100 + c * 4 + e + 1) + _ + _ = n
  rw [Nat.add_assoc, J5]
  simp only [daysBeforeYear]
  rw [show a * 400 + b * 100 + c * 4 + e + 1 - 1 = 400 * a + 100 * b + 4 * c + e from by omega]
  rw [show (400 * a + 100 * b + 4 * c + e) / 4 = 100 * a + 25 * b + c from by omega,
      show (400 * a + 100 * b + 4 * c + e) / 100 = 4 * a + b from by omega,
      show (400 * a + 100 * b + 4 * c + e) / 400 = a from by omega]
  omega

theorem ord2ymd_spec (n y m d : Nat) (h1 : 1 ≤ n) (h2 : n ≤ 3652059)
    (heq : ord2ymd n = (y, m, d)) :
    validDate y m d ∧ toordinal y m d = n := by
  simp only [ord2ymd] at heq
  split at heq
  case isTrue hcond =>
    injection heq with hy hrest
    injection hrest with hm hd
    subst hy hm hd
    exact ord_boundary n _ _ _ _ _ _ _ h1 h2
      (Nat.div_add_mod (n - 1) 146097).symm (Nat.mod_lt _ (by norm_num))
      (Nat.div_add_mod _ 36524).symm (Nat.mod_lt _ (by norm_num))
      (Nat.div_add_mod _ 1461).symm (Nat.mod_lt _ (by norm_num))
      rfl hcond
  case isFalse hcond =>
    injection heq with hy hrest
    injection hrest with hm hd
    subst hy hm hd
    exact ord_main n _ _ _ _ _ _ _ _ h1 h2
      (Nat.div_add_mod (n - 1) 146097).symm (Nat.mod_lt _ (by norm_num))
      (Nat.div_add_mod _ 36524).symm (Nat.mod_lt _ (by norm_num))
      (Nat.div_add_mod _ 1461).symm (Nat.mod_lt _ (by norm_num))
      (Nat.div_add_mod _ 365).symm (Nat.mod_lt _ (by norm_num))
      hcond

/-! ## Support lemmas about the record builder and the store -/

theorem buildRecord_fields (rid : Nat) (row : List CellValue) (rec : Record)
    (h : buildRecord rid row = .ok rec) :
    rec.id = rid ∧
    rec.habitacion = pyStrip (pyStr (row.getD 0 .missing)) ∧
    rec.salida = _format_checkout (row.getD 2 .missing) ∧
    rec.media_pension = pyStrip (pyStr (row.getD 3 .missing)) ∧
    rec.estado = "Pendiente" := by
  simp only [buildRecord] at h
  split at h
  · exact absurd h (by simp)
  · injection h with h
    subst h
    exact ⟨rfl, rfl, rfl, rfl, rfl⟩

theorem buildRows_ok (rows : List (List CellValue)) (ctr : Nat) (recs : List Record)
    (c' : Nat) (h : buildRows rows ctr = (.ok recs, c')) :
    recs.map (fun r => r.id) = List.range' ctr rows.length ∧
    c' = ctr + rows.length ∧
    ∀ r ∈ recs, r.estado = "Pendiente" := by
  induction rows generalizing ctr recs with
  | nil =>
    unfold buildRows at h
    injection h with h1 h2
    injection h1 with h1
    subst h1 h2
    simp
  | cons r rs ih =>
    unfold buildRows at h
    cases hb : buildRecord ctr r with
    | error e => rw [hb] at h; exact absurd h (by simp)
    | ok rec =>
      rw [hb] at h
      cases hrest : buildRows rs (ctr + 1) with
      | mk res c'' =>
        rw [hrest] at h
        cases res with
        | error e => exact absurd h (by simp)
        | ok recs' =>
          simp only at h
          injection h with h1 h2
          injection h1 with h1
          subst h1 h2
          obtain ⟨ih1, ih2, ih3⟩ := ih (ctr + 1) recs' hrest
          obtain ⟨hid, _, _, _, hest⟩ := buildRecord_fields ctr r rec hb
          refine ⟨?_, ?_, ?_⟩
          · simp [List.length_cons, List.range'_succ, hid, ih1]
          · simp only [List.length_cons]
            omega
          · intro x hx
            rcases List.mem_cons.mp hx with rfl | hx'
            · exact hest
            · exact ih3 x hx' 

theorem buildRows_counter_le (rows : List (List CellValue)) (ctr : Nat) :
    ctr ≤ (buildRows rows ctr).2 := by
  induction rows generalizing ctr with
  | nil => simp [buildRows]
  | cons r rs ih =>
    unfold buildRows
    cases hb : buildRecord ctr r with
    | error e => simp
    | ok rec =>
      cases hrest : buildRows rs (ctr + 1) with
      | mk res c'' =>
        have := ih (ctr + 1)
        rw [hrest] at this
        cases res with
        | error e => simpa using by omega
        | ok recs' => simpa using by omega

theorem _parse_file_counter_le (f : UploadFile) (ctr : Nat) :
    ctr ≤ (_parse_file f ctr).2 := by
  unfold _parse_file
  cases f with
  | empty => simp
  | unreadable => simp
  | table df =>
    cases hn : _normalize_columns df with
    | error e => simp [hn]
    | ok df1 => simpa [hn] using buildRows_counter_le (project df1).rows ctr

theorem _parse_file_ok (f : UploadFile) (ctr : Nat) (recs : List Record) (c' : Nat)
    (h : _parse_file f ctr = (.ok recs, c')) :
    recs.map (fun r => r.id) = List.range' ctr recs.length ∧
    c' = ctr + recs.length ∧
    ∀ r ∈ recs, r.estado = "Pendiente" := by
  unfold _parse_file at h
  cases f with
  | empty => exact absurd h (by simp)
  | unreadable => exact absurd h (by simp)
  | table df =>
    simp only [] at h
    cases hn : _normalize_columns df with
    | error e => rw [hn] at h; exact absurd h (by simp)
    | ok df1 =>
      rw [hn] at h
      obtain ⟨h1, h2, h3⟩ := buildRows_ok (project df1).rows ctr recs c' h
      have hlen : recs.length = (project df1).rows.length := by
        have := congrArg List.length h1
        simpa using this
      rw [hlen]
      exact ⟨h1, h2, h3⟩

theorem toggle_map_id (recs : List Record) (rid : Nat) :
    (toggle recs rid).1.map (fun r => r.id) = recs.map (fun r => r.id) := by
  induction recs with
  | nil => rfl
  | cons r rs ih =>
    unfold toggle
    by_cases hid : r.id = rid
    · simp [hid]
    · simp [hid, ih]

theorem toggle_estado_valid (recs : List Record) (rid : Nat)
    (h : ∀ r ∈ recs, r.estado = "Pendiente" ∨ r.estado = "Ingresó") :
    ∀ r' ∈ (toggle recs rid).1,
      r'.estado = "Pendiente" ∨ r'.estado = "Ingresó" := by
  induction recs with
  | nil => simp [toggle]
  | cons r rs ih =>
    unfold toggle
    by_cases hid : r.id = rid
    · simp only [hid, if_pos rfl]
      intro r' hr'
      rcases List.mem_cons.mp hr' with rfl | hr'
      · by_cases hp : r.estado = "Pendiente" <;> simp [hp]
      · exact h r' (List.mem_cons_of_mem _ hr')
    · simp only [if_neg hid]
      intro r' hr'
      rcases List.mem_cons.mp hr' with rfl | hr'
      · exact h r' (List.mem_cons_self _ _)
      · exact ih (fun x hx => h x (List.mem_cons_of_mem _ hx)) r' hr'

/-- The store invariant every reachable process state satisfies. -/
def storeInv (st : AppState) : Prop :=
  1 ≤ st.counter ∧
  (st.records.map (fun r => r.id)).Pairwise (· < ·) ∧
  ∀ r ∈ st.records, 1 ≤ r.id ∧ r.id < st.counter ∧
    (r.estado = "Pendiente" ∨ r.estado = "Ingresó")

theorem reach_storeInv (st : AppState) (h : Reach st) : storeInv st := by
  induction h with
  | init => exact ⟨le_refl 1, by simp, by simp⟩
  | upload st st' f res hst heq ih =>
    obtain ⟨ih1, ih2, ih3⟩ := ih
    cases f with
    | none =>
      unfold upload at heq
      injection heq with h1 h2
      subst h1
      exact ⟨ih1, ih2, ih3⟩
    | some p =>
      obtain ⟨fname, fl⟩ := p
      unfold upload at heq
      simp only [] at heq
      by_cases hf : fname = ""
      · rw [if_pos hf] at heq
        injection heq with h1 h2
        subst h1
        exact ⟨ih1, ih2, ih3⟩
      · rw [if_neg hf] at heq
        cases hp : _parse_file fl st.counter with
        | mk pres c' =>
          have hle : st.counter ≤ c' := by
            have := _parse_file_counter_le fl st.counter
            rw [hp] at this
            exact this
          rw [hp] at heq
          cases pres with
          | error e =>
            simp only at heq
            injection heq with h1 h2
            subst h1
            refine ⟨show 1 ≤ c' by omega, ih2, ?_⟩
            intro r hr
            obtain ⟨a, b, c⟩ := ih3 r hr
            exact ⟨a, show r.id < c' by omega, c⟩
          | ok recs =>
            simp only at heq
            injection heq with h1 h2
            subst h1
            obtain ⟨g1, g2, g3⟩ := _parse_file_ok fl st.counter recs c' hp
            refine ⟨show 1 ≤ c' by omega, ?_, ?_⟩
            · show (recs.map (fun r => r.id)).Pairwise (· < ·)
              rw [g1]
              exact List.pairwise_lt_range' st.counter recs.length
            · intro r hr
              have hmem : r.id ∈ List.range' st.counter recs.length := by
                rw [← g1]
                exact List.mem_map_of_mem _ hr
              rw [List.mem_range'_1] at hmem
              exact ⟨show 1 ≤ r.id by omega, show r.id < c' by omega,
                Or.inl (g3 r hr)⟩
  | toggle st rid hst ih =>
    obtain ⟨ih1, ih2, ih3⟩ := ih
    refine ⟨ih1, ?_, ?_⟩
    · rw [toggle_map_id]
      exact ih2
    · intro r hr
      have hmem : r.id ∈ st.records.map (fun r => r.id) := by
        rw [← toggle_map_id st.records rid]
        exact List.mem_map_of_mem _ hr
      rw [List.mem_map] at hmem
      obtain ⟨x, hx, hxid⟩ := hmem
      obtain ⟨a, b, _⟩ := ih3 x hx
      have hval := toggle_estado_valid st.records rid
        (fun x hx => (ih3 x hx).2.2) r hr
      exact ⟨by omega, show r.id < st.counter by omega, hval⟩

theorem _normalize_columns_rows (df df1 : DF) (h : _normalize_columns df = .ok df1) :
    df1.rows = df.rows := by
  simp only [_normalize_columns] at h
  split at h
  · injection h with h
    subst h
    rfl
  · exact absurd h (by simp)

theorem _parse_file_table_len (df : DF) (ctr : Nat) (recs : List Record) (c' : Nat)
    (h : _parse_file (.table df) ctr = (.ok recs, c')) :
    recs.length = df.rows.length := by
  unfold _parse_file at h
  simp only [] at h
  cases hn : _normalize_columns df with
  | error e => rw [hn] at h; exact absurd h (by simp)
  | ok df1 =>
    rw [hn] at h
    obtain ⟨h1, _, _⟩ := buildRows_ok (project df1).rows ctr recs c' h
    have hlen : recs.length = (project df1).rows.length := by
      have := congrArg List.length h1
      simpa using this
    rw [hlen]
    simp [project, _normalize_columns_rows df df1 hn]

theorem normalizedMap_isNone_iff (cols : List String) (k : String) :
    (normalizedMap cols k).isNone = true ↔ ∀ c ∈ cols, ¬ normHeader c = k := by
  unfold normalizedMap
  rw [Option.isNone_iff_eq_none, List.getLast?_eq_none_iff, List.filter_eq_nil_iff]
  constructor
  · intro h c hc
    have := h c hc
    simpa using this
  · intro h c hc
    simpa using h c hc

theorem toggle_not_found (recs : List Record) (rid : Nat)
    (h : ∀ r ∈ recs, r.id ≠ rid) :
    toggle recs rid = (recs, false) := by
  induction recs with
  | nil => rfl
  | cons r rs ih =>
    unfold toggle
    rw [if_neg (h r (List.mem_cons_self _ _))]
    rw [ih (fun x hx => h x (List.mem_cons_of_mem _ hx))]

theorem toggle_found (l₁ l₂ : List Record) (r : Record) (rid : Nat)
    (hl₁ : ∀ x ∈ l₁, x.id ≠ rid) (hr : r.id = rid) :
    toggle (l₁ ++ r :: l₂) rid =
      (l₁ ++ { r with estado := if r.estado = "Pendiente" then "Ingresó"
                else "Pendiente" } :: l₂, true) := by
  induction l₁ with
  | nil =>
    unfold toggle
    simp only [List.nil_append]
    rw [if_pos hr]
  | cons x xs ih =>
    unfold toggle
    simp only [List.cons_append]
    rw [if_neg (hl₁ x (List.mem_cons_self _ _))]
    rw [ih (fun z hz => hl₁ z (List.mem_cons_of_mem _ hz))]

theorem upload_success_spec (fname : String) (df : DF) (st st' : AppState)
    (h : upload (some (fname, .table df)) st = (st', .success)) :
    st'.records.map (fun r => r.id) = List.range' st.counter df.rows.length ∧
    st'.counter = st.counter + df.rows.length ∧
    st'.records.length = df.rows.length ∧
    (∀ r ∈ st'.records, r.estado = "Pendiente") ∧
    ∀ st₂ : AppState, st₂.counter = st.counter →
      upload (some (fname, .table df)) st₂ = (st', .success) := by
  unfold upload at h
  simp only [] at h
  by_cases hf : fname = ""
  · rw [if_pos hf] at h
    injection h with h1 h2
    exact absurd h2 (by intro hh; exact UploadResult.noConfusion hh)
  · rw [if_neg hf] at h
    cases hp : _parse_file (.table df) st.counter with
    | mk pres c' =>
      rw [hp] at h
      cases pres with
      | error e =>
        simp only at h
        injection h with h1 h2
        exact absurd h2 (by intro hh; exact UploadResult.noConfusion hh)
      | ok recs =>
        simp only at h
        injection h with h1 h2
        subst h1
        obtain ⟨g1, g2, g3⟩ := _parse_file_ok _ _ _ _ hp
        have hlen := _parse_file_table_len df st.counter recs c' hp
        refine ⟨?_, ?_, hlen, g3, ?_⟩
        · show recs.map (fun r => r.id) = _
          rw [g1, hlen]
        · show c' = _
          rw [g2, hlen]
        · intro st₂ h₂
          unfold upload
          simp only []
          rw [if_neg hf, h₂, hp]

/-! ## Claim theorems -/

/-- Claim C1: For every successful upload of a valid n-row table, the store
afterwards contains exactly n records, one per input row in input-row
order, with ids strictly ascending (assigned consecutively from the
current counter in row order), every record `Pendiente`, and the result is
independent of whatever records the store held before (all previous
records are discarded). -/
theorem C1_successful_upload_replaces_store (fname : String) (df : DF)
    (st st' : AppState)
    (h : upload (some (fname, .table df)) st = (st', .success)) :
    st'.records.length = df.rows.length ∧
    st'.records.map (fun r => r.id) = List.range' st.counter df.rows.length ∧
    (st'.records.map (fun r => r.id)).Pairwise (· < ·) ∧
    (∀ r ∈ st'.records, r.estado = "Pendiente") ∧
    (∀ st₂ : AppState, st₂.counter = st.counter →
       upload (some (fname, .table df)) st₂ = (st', .success)) := by
  obtain ⟨g1, g2, g3, g4, g5⟩ := upload_success_spec fname df st st' h
  refine ⟨g3, g1, ?_, g4, g5⟩
  rw [g1]
  exact List.pairwise_lt_range' st.counter df.rows.length

/-- Witness for C1: uploading a concrete 2-row table over a nonempty store
with counter 5 gives exactly 2 records with ids `[5, 6]`, both pending. -/
theorem C1_witness :
    (upload (some ("f.xlsx", .table ⟨["room number", "number of persons",
        "day of check out", "half-board included?"],
        [[CellValue.text "A", .num 2, .missing, .text "x"],
         [CellValue.text "B", .missing, .missing, .missing]]⟩))
      ⟨[⟨1, "Z", OccVal.absent, "", "", "Pendiente"⟩], 5⟩).1.records.length = 2 ∧
    (upload (some ("f.xlsx", .table ⟨["room number", "number of persons",
        "day of check out", "half-board included?"],
        [[CellValue.text "A", .num 2, .missing, .text "x"],
         [CellValue.text "B", .missing, .missing, .missing]]⟩))
      ⟨[⟨1, "Z", OccVal.absent, "", "", "Pendiente"⟩], 5⟩).1.records.map
        (fun r => r.id) = [5, 6] := by
  obtain ⟨g1, g2, _, _, _⟩ := C1_successful_upload_replaces_store "f.xlsx"
    ⟨["room number", "number of persons", "day of check out",
      "half-board included?"],
     [[CellValue.text "A", .num 2, .missing, .text "x"],
      [CellValue.text "B", .missing, .missing, .missing]]⟩
    ⟨[⟨1, "Z", OccVal.absent, "", "", "Pendiente"⟩], 5⟩
    ((upload (some ("f.xlsx", .table ⟨["room number", "number of persons",
        "day of check out", "half-board included?"],
        [[CellValue.text "A", .num 2, .missing, .text "x"],
         [CellValue.text "B", .missing, .missing, .missing]]⟩))
      ⟨[⟨1, "Z", OccVal.absent, "", "", "Pendiente"⟩], 5⟩).1) (by decide)
  exact ⟨g1, g2⟩

/-- Claim C2: Every upload whose ingestion fails (empty bytes, unparseable
bytes, missing columns, or an error raised while building records) leaves
the records of the store exactly as they were. -/
theorem C2_failed_upload_preserves_store (f : Option (String × UploadFile))
    (st st' : AppState) (e : PyErr)
    (h : upload f st = (st', .failure e)) :
    st'.records = st.records := by
  cases f with
  | none =>
    unfold upload at h
    injection h with h1 h2
    exact absurd h2 (by intro hh; exact UploadResult.noConfusion hh)
  | some p =>
    obtain ⟨fname, fl⟩ := p
    unfold upload at h
    simp only [] at h
    by_cases hf : fname = ""
    · rw [if_pos hf] at h
      injection h with h1 h2
      exact absurd h2 (by intro hh; exact UploadResult.noConfusion hh)
    · rw [if_neg hf] at h
      cases hp : _parse_file fl st.counter with
      | mk pres c' =>
        rw [hp] at h
        cases pres with
        | error e' =>
          simp only at h
          injection h with h1 h2
          subst h1
          rfl
        | ok recs =>
          simp only at h
          injection h with h1 h2
          exact absurd h2 (by intro hh; exact UploadResult.noConfusion hh)

/-- Witness for C2: uploading a zero-byte file over a 1-record store with
counter 5 leaves the single stored record in place. -/
theorem C2_witness :
    (upload (some ("f.xlsx", UploadFile.empty))
        ⟨[⟨1, "Z", OccVal.absent, "", "", "Pendiente"⟩], 5⟩).1.records
      = [⟨1, "Z", OccVal.absent, "", "", "Pendiente"⟩] :=
  C2_failed_upload_preserves_store (some ("f.xlsx", UploadFile.empty))
    ⟨[⟨1, "Z", OccVal.absent, "", "", "Pendiente"⟩], 5⟩
    ((upload (some ("f.xlsx", UploadFile.empty))
        ⟨[⟨1, "Z", OccVal.absent, "", "", "Pendiente"⟩], 5⟩).1)
    (.valueError "El archivo está vacío.") (by decide)

/-- Claim C6: In every reachable process state, record ids are positive and
strictly increasing in store order; a successful upload assigns the
consecutive ids starting at the current counter (so ids are never reused:
every new id exceeds every id currently stored, and after a second upload
the ids continue from where the previous upload stopped instead of
restarting at 1, the counter advancing by exactly the row count). -/
theorem C6_ids_monotone (st : AppState) (h : Reach st) :
    (∀ r ∈ st.records, 1 ≤ r.id) ∧
    (st.records.map (fun r => r.id)).Pairwise (· < ·) ∧
    (∀ fname df st', upload (some (fname, .table df)) st = (st', .success) →
      st'.records.map (fun r => r.id) = List.range' st.counter df.rows.length ∧
      st'.counter = st.counter + df.rows.length ∧
      ∀ r' ∈ st'.records, ∀ r ∈ st.records, r.id < r'.id) := by
  obtain ⟨i1, i2, i3⟩ := reach_storeInv st h
  refine ⟨fun r hr => (i3 r hr).1, i2, ?_⟩
  intro fname df st' hup
  obtain ⟨g1, g2, g3, _, _⟩ := upload_success_spec fname df st st' hup
  refine ⟨g1, g2, ?_⟩
  intro r' hr' r hr
  have hmem : r'.id ∈ List.range' st.counter df.rows.length := by
    rw [← g1]
    exact List.mem_map_of_mem _ hr'
  rw [List.mem_range'_1] at hmem
  have := (i3 r hr).2.1
  omega

/-- Witness for C6: from the initial state, a 1-row upload assigns id 1 and
advances the counter to 2. -/
theorem C6_witness :
    (upload (some ("f.xlsx", .table ⟨["room number", "number of persons",
        "day of check out", "half-board included?"],
        [[CellValue.text "A", .num 2, .missing, .text "x"]]⟩))
      ⟨[], 1⟩).1.records.map (fun r => r.id) = [1] ∧
    (upload (some ("f.xlsx", .table ⟨["room number", "number of persons",
        "day of check out", "half-board included?"],
        [[CellValue.text "A", .num 2, .missing, .text "x"]]⟩))
      ⟨[], 1⟩).1.counter = 2 := by
  obtain ⟨-, -, g⟩ := C6_ids_monotone ⟨[], 1⟩ Reach.init
  obtain ⟨g1, g2, -⟩ := g "f.xlsx"
    ⟨["room number", "number of persons", "day of check out",
      "half-board included?"],
     [[CellValue.text "A", .num 2, .missing, .text "x"]]⟩
    ((upload (some ("f.xlsx", .table ⟨["room number", "number of persons",
        "day of check out", "half-board included?"],
        [[CellValue.text "A", .num 2, .missing, .text "x"]]⟩))
      ⟨[], 1⟩).1) (by decide)
  exact ⟨g1, g2⟩

/-- Claim C7: On any store state (any record list satisfying the store
invariants: distinct ids and two-valued statuses): toggling an id that no
record carries returns the store unchanged and reports not-found; toggling
an existing id flips exactly that record's status between `Pendiente` and
`Ingresó` while position, every other record, and every other field of the
toggled record stay unchanged, and toggling the same id again restores the
original store. -/
theorem C7_toggle_flips_one_record (recs : List Record) (rid : Nat)
    (hnd : (recs.map (fun r => r.id)).Nodup)
    (hval : ∀ r ∈ recs, r.estado = "Pendiente" ∨ r.estado = "Ingresó") :
    ((∀ r ∈ recs, r.id ≠ rid) → toggle recs rid = (recs, false)) ∧
    (∀ r ∈ recs, r.id = rid →
      (toggle recs rid).2 = true ∧
      (∃ l₁ l₂ r', recs = l₁ ++ r :: l₂ ∧
        (toggle recs rid).1 = l₁ ++ r' :: l₂ ∧
        r'.id = r.id ∧ r'.habitacion = r.habitacion ∧
        r'.personas = r.personas ∧ r'.salida = r.salida ∧
        r'.media_pension = r.media_pension ∧
        (r.estado = "Pendiente" → r'.estado = "Ingresó") ∧
        (r.estado = "Ingresó" → r'.estado = "Pendiente")) ∧
      (toggle (toggle recs rid).1 rid).1 = recs) := by
  refine ⟨toggle_not_found recs rid, ?_⟩
  intro r hr hid
  obtain ⟨l₁, l₂, hdecomp⟩ := List.append_of_mem hr
  have hl₁ : ∀ x ∈ l₁, x.id ≠ rid := by
    intro x hx hxid
    rw [hdecomp, List.map_append, List.map_cons] at hnd
    rw [List.nodup_append] at hnd
    obtain ⟨-, -, hdisj⟩ := hnd
    exact hdisj (List.mem_map_of_mem _ hx)
      (by rw [hxid, ← hid]; exact List.mem_cons_self _ _)
  have hv := hval r hr
  subst hdecomp
  obtain ⟨i0, f1, f2, f3, f4, f5⟩ := r
  rcases hv with hp | hp
  · have hp' : f5 = "Pendiente" := hp
    subst hp'
    have ht := toggle_found l₁ l₂ ⟨i0, f1, f2, f3, f4, "Pendiente"⟩ rid hl₁ hid
    rw [show ((⟨i0, f1, f2, f3, f4, "Pendiente"⟩ : Record)).estado = "Pendiente"
      from rfl] at ht
    rw [show (if ("Pendiente" : String) = "Pendiente" then ("Ingresó" : String)
        else "Pendiente") = "Ingresó" from rfl] at ht
    have ht2 := toggle_found l₁ l₂ ⟨i0, f1, f2, f3, f4, "Ingresó"⟩ rid hl₁ hid
    rw [show ((⟨i0, f1, f2, f3, f4, "Ingresó"⟩ : Record)).estado = "Ingresó"
      from rfl] at ht2
    rw [show (if ("Ingresó" : String) = "Pendiente" then ("Ingresó" : String)
        else "Pendiente") = "Pendiente" from rfl] at ht2
    refine ⟨by rw [ht], ⟨l₁, l₂, ⟨i0, f1, f2, f3, f4, "Ingresó"⟩, rfl, by rw [ht],
      rfl, rfl, rfl, rfl, rfl, fun _ => rfl,
      fun hx => absurd (show ("Pendiente" : String) = "Ingresó" from hx) (by decide)⟩, ?_⟩
    rw [ht, ht2]
  · have hp' : f5 = "Ingresó" := hp
    subst hp'
    have ht := toggle_found l₁ l₂ ⟨i0, f1, f2, f3, f4, "Ingresó"⟩ rid hl₁ hid
    rw [show ((⟨i0, f1, f2, f3, f4, "Ingresó"⟩ : Record)).estado = "Ingresó"
      from rfl] at ht
    rw [show (if ("Ingresó" : String) = "Pendiente" then ("Ingresó" : String)
        else "Pendiente") = "Pendiente" from rfl] at ht
    have ht2 := toggle_found l₁ l₂ ⟨i0, f1, f2, f3, f4, "Pendiente"⟩ rid hl₁ hid
    rw [show ((⟨i0, f1, f2, f3, f4, "Pendiente"⟩ : Record)).estado = "Pendiente"
      from rfl] at ht2
    rw [show (if ("Pendiente" : String) = "Pendiente" then ("Ingresó" : String)
        else "Pendiente") = "Ingresó" from rfl] at ht2
    refine ⟨by rw [ht], ⟨l₁, l₂, ⟨i0, f1, f2, f3, f4, "Pendiente"⟩, rfl, by rw [ht],
      rfl, rfl, rfl, rfl, rfl,
      fun hx => absurd (show ("Ingresó" : String) = "Pendiente" from hx) (by decide),
      fun _ => rfl⟩, ?_⟩
    rw [ht, ht2]

/-- Witness for C7: in a concrete 2-record store, toggling the absent id 9
changes nothing, and toggling id 2 twice restores the store. -/
theorem C7_witness :
    toggle [⟨1, "A", OccVal.absent, "", "", "Pendiente"⟩,
            ⟨2, "B", OccVal.absent, "", "", "Pendiente"⟩] 9 =
      ([⟨1, "A", OccVal.absent, "", "", "Pendiente"⟩,
        ⟨2, "B", OccVal.absent, "", "", "Pendiente"⟩], false) ∧
    (toggle (toggle [⟨1, "A", OccVal.absent, "", "", "Pendiente"⟩,
            ⟨2, "B", OccVal.absent, "", "", "Pendiente"⟩] 2).1 2).1 =
      [⟨1, "A", OccVal.absent, "", "", "Pendiente"⟩,
       ⟨2, "B", OccVal.absent, "", "", "Pendiente"⟩] := by
  constructor
  · exact (C7_toggle_flips_one_record
      [⟨1, "A", OccVal.absent, "", "", "Pendiente"⟩,
       ⟨2, "B", OccVal.absent, "", "", "Pendiente"⟩] 9
      (by decide) (by decide)).1 (by decide)
  · exact ((C7_toggle_flips_one_record
      [⟨1, "A", OccVal.absent, "", "", "Pendiente"⟩,
       ⟨2, "B", OccVal.absent, "", "", "Pendiente"⟩] 2
      (by decide) (by decide)).2
      ⟨2, "B", OccVal.absent, "", "", "Pendiente"⟩
      (by decide) rfl).2.2

/-- Claim C3: The checkout formatter matches the claimed reference
definition clause by clause and never fails: a missing/null cell gives
`""`; a date/time value renders its calendar date as `DD/MM/YYYY` with the
time-of-day dropped; a numeric value `n` in the representable range
renders (as `DD/MM/YYYY`) the unique calendar date lying exactly `n` days
after 1899-12-30 — re-deriving the day count via `toordinal` reproduces
`n`; a numeric value outside that range falls back to rendering the raw
number. -/
theorem C3_checkout_formatter_reference :
    (_format_checkout .missing = "") ∧
    (∀ y m d t t', _format_checkout (.date y m d t) = fmtDMY y m d ∧
        _format_checkout (.date y m d t) = _format_checkout (.date y m d t')) ∧
    (∀ n : Int, representable n →
        ∃ y m d, validDate y m d ∧ _format_checkout (.num n) = fmtDMY y m d ∧
          (toordinal y m d : Int) = (toordinal 1899 12 30 : Int) + n) ∧
    (∀ n : Int, ¬representable n → _format_checkout (.num n) = toString n) := by
  refine ⟨rfl, fun y m d t t' => ⟨rfl, rfl⟩, ?_, ?_⟩
  · intro n hrep
    obtain ⟨hr1, hr2⟩ := hrep
    have hepoch : toordinal 1899 12 30 = 693594 := rfl
    have hmax : MAXORDINAL = 3652059 := rfl
    obtain ⟨y, m, d, hmd⟩ :
        ∃ y m d, ord2ymd ((toordinal 1899 12 30 : Int) + n).toNat = (y, m, d) :=
      ⟨_, _, _, rfl⟩
    have hz1 : 1 ≤ ((toordinal 1899 12 30 : Int) + n).toNat := by omega
    have hz2 : ((toordinal 1899 12 30 : Int) + n).toNat ≤ 3652059 := by
      rw [hepoch] at hr2 ⊢
      rw [hmax] at hr2
      omega
    obtain ⟨hvalid, hord⟩ :=
      ord2ymd_spec ((toordinal 1899 12 30 : Int) + n).toNat y m d hz1 hz2 hmd
    refine ⟨y, m, d, hvalid, ?_, ?_⟩
    · show (match fromordinal ((toordinal 1899 12 30 : Int) + n) with
        | some (y, m, d) => fmtDMY y m d
        | none => toString n) = fmtDMY y m d
      simp only [fromordinal]
      rw [if_pos ⟨hr1, hr2⟩, hmd]
    · rw [hord]
      omega
  · intro n hrep
    show (match fromordinal ((toordinal 1899 12 30 : Int) + n) with
      | some (y, m, d) => fmtDMY y m d
      | none => toString n) = toString n
    simp only [fromordinal]
    rw [if_neg (show ¬(1 ≤ (toordinal 1899 12 30 : Int) + n ∧
      (toordinal 1899 12 30 : Int) + n ≤ (MAXORDINAL : Int)) from hrep)]

/-- Witness for C3: the day-count 45000 is representable; the formatter
renders it as `15/03/2023`, and that date is exactly 45000 days after
1899-12-30. -/
theorem C3_witness :
    representable 45000 ∧
    _format_checkout (.num 45000) = "15/03/2023" ∧
    (∃ y m d, validDate y m d ∧ _format_checkout (.num 45000) = fmtDMY y m d ∧
      (toordinal y m d : Int) = (toordinal 1899 12 30 : Int) + 45000) :=
  ⟨by decide, by decide,
    C3_checkout_formatter_reference.2.2.1 45000 (by decide)⟩

/-- Counterexample for C8: the free-text branch of `_format_checkout`
returns `str(value)` with no `.strip()`: on `"  libre  "` the claim
predicts the trimmed `"libre"` but the code returns the string
unmodified. -/
theorem C8_counterexample :
    _format_checkout (.text "  libre  ") = "  libre  " ∧
    pyStrip "  libre  " = "libre" ∧ ("  libre  " : String) ≠ "libre" :=
  ⟨rfl, by decide, by decide⟩

/-- Amended C8: for every free-text checkout cell the formatter
returns the text entirely unmodified (in particular, surrounding
whitespace is not trimmed). -/
theorem C8_text_returned_unmodified (s : String) :
    _format_checkout (.text s) = s := rfl

/-- Counterexample for C9: the room field of a record built from a row
whose room cell is empty/missing is the string `"nan"` (pandas renders the
NaN cell through `str(...)`), not the empty string the claim predicts. -/
theorem C9_counterexample :
    buildRecord 1 [CellValue.missing, CellValue.num 2, CellValue.missing,
        CellValue.text "x"] =
      .ok ⟨1, "nan", OccVal.num 2, "", "x", "Pendiente"⟩ ∧
    ("nan" : String) ≠ "" := ⟨rfl, by decide⟩

/-- Amended C9: the built record's room field is the room cell
rendered through Python `str(...)` and stripped of surrounding
whitespace; for a text cell this is the trimmed text, but a missing/empty
cell renders as `"nan"`, not as the empty string. -/
theorem C9_room_field (rid : Nat) (row : List CellValue) (rec : Record)
    (h : buildRecord rid row = .ok rec) :
    rec.habitacion = pyStrip (pyStr (row.getD 0 .missing)) ∧
    (row.getD 0 .missing = .missing → rec.habitacion = "nan") ∧
    (∀ s, row.getD 0 .missing = .text s → rec.habitacion = pyStrip s) := by
  obtain ⟨-, hhab, -, -, -⟩ := buildRecord_fields rid row rec h
  refine ⟨hhab, ?_, ?_⟩
  · intro hmiss
    rw [hhab, hmiss]
    rfl
  · intro s hs
    rw [hhab, hs]
    rfl

/-- Witness for C9: a row with room cell `" A12 "` builds a record whose
room field is the trimmed `"A12"`. -/
theorem C9_witness :
    (⟨7, "A12", OccVal.num 2, "", "x", "Pendiente"⟩ : Record).habitacion =
      pyStrip (pyStr (CellValue.text " A12 ")) ∧
    pyStrip (pyStr (CellValue.text " A12 ")) = "A12" := by
  have h := C9_room_field 7
    [CellValue.text " A12 ", CellValue.num 2, CellValue.missing,
     CellValue.text "x"]
    ⟨7, "A12", OccVal.num 2, "", "x", "Pendiente"⟩ (by rfl)
  exact ⟨h.1, by decide⟩

/-- Counterexample for C4: a present but non-numeric occupants cell
(text `"two"`) makes `int(...)` raise, aborting the whole one-row batch
with a `ValueError` (and still consuming one id), contrary to the claim
that a malformed occupants cell never fails the row or the batch. -/
theorem C4_counterexample :
    _parse_file (.table ⟨["room number", "number of persons",
        "day of check out", "half-board included?"],
      [[CellValue.text "A", CellValue.text "two", CellValue.missing,
        CellValue.text "x"]]⟩) 1 =
      (.error (.valueError "invalid literal for int with base 10"), 2) := rfl

/-- Amended C4: occupants is the cell's integer value when the cell
is a number or numeric text, and the absent marker when the cell is
missing (NA); but a present non-numeric text cell raises a `ValueError`
that aborts the record (and with it the whole batch), instead of
degrading to the absent marker. -/
theorem C4_occupants_conversion (rid : Nat) (row : List CellValue) :
    (pd_isna (row.getD 1 .missing) = true →
      ∃ rec, buildRecord rid row = .ok rec ∧ rec.personas = .absent) ∧
    (∀ n : Int, row.getD 1 .missing = .num n →
      ∃ rec, buildRecord rid row = .ok rec ∧ rec.personas = .num n) ∧
    (∀ s n, row.getD 1 .missing = .text s → parseIntText s = some n →
      ∃ rec, buildRecord rid row = .ok rec ∧ rec.personas = .num n) ∧
    (∀ s, row.getD 1 .missing = .text s → parseIntText s = none →
      buildRecord rid row =
        .error (.valueError "invalid literal for int with base 10")) := by
  refine ⟨?_, ?_, ?_, ?_⟩
  · intro hna
    simp only [buildRecord]
    rw [if_pos hna]
    exact ⟨_, rfl, rfl⟩
  · intro n hn
    simp only [buildRecord]
    rw [hn]
    rw [if_neg (show ¬(pd_isna (CellValue.num n) = true) from by simp [pd_isna])]
    exact ⟨_, rfl, rfl⟩
  · intro s n hs hp
    simp only [buildRecord]
    rw [hs]
    rw [if_neg (show ¬(pd_isna (CellValue.text s) = true) from by simp [pd_isna])]
    simp only [pyInt]
    rw [hp]
    exact ⟨_, rfl, rfl⟩
  · intro s hs hp
    simp only [buildRecord]
    rw [hs]
    rw [if_neg (show ¬(pd_isna (CellValue.text s) = true) from by simp [pd_isna])]
    simp only [pyInt]
    rw [hp]
    rfl

/-- Witness for C4: a missing occupants cell builds fine with the absent
marker, and the numeric text `" 4 "` converts to the integer 4. -/
theorem C4_witness :
    (∃ rec, buildRecord 3 [CellValue.text "A", CellValue.missing,
        CellValue.missing, CellValue.text "x"] = .ok rec ∧
      rec.personas = .absent) ∧
    (∃ rec, buildRecord 3 [CellValue.text "A", CellValue.text " 4 ",
        CellValue.missing, CellValue.text "x"] = .ok rec ∧
      rec.personas = .num 4) :=
  ⟨(C4_occupants_conversion 3 [CellValue.text "A", CellValue.missing,
      CellValue.missing, CellValue.text "x"]).1 (by decide),
   (C4_occupants_conversion 3 [CellValue.text "A", CellValue.text " 4 ",
      CellValue.missing, CellValue.text "x"]).2.2.1 " 4 " 4 (by decide)
      (by decide)⟩

/-- Counterexample for C5: with only the room-number header missing, the
code's message is
`"Faltan las siguientes columnas en el archivo: habitacion"`: it names the
missing field by its canonical field identifier `habitacion`, and the
human-readable label `"room number"` the claim promises appears nowhere in
the message. -/
theorem C5_counterexample :
    _normalize_columns ⟨["number of persons", "day of check out",
        "half-board included?"], []⟩ =
      .error (.valueError
        "Faltan las siguientes columnas en el archivo: habitacion") ∧
    ¬ ("room number").data <:+:
        ("Faltan las siguientes columnas en el archivo: habitacion").data :=
  ⟨rfl, by decide⟩

/-- Amended C5: when at least one required header is unresolved,
`_normalize_columns` fails with a `ValueError` whose message lists exactly
the canonical field identifiers (`habitacion`, `personas`, `salida`,
`media_pension`) of the unresolved fields — those required labels no
uploaded header normalizes to — joined with `", "` (not the English
human-readable labels such as `"room number"`). -/
theorem C5_missing_columns_message (cols : List String)
    (rows : List (List CellValue))
    (hmiss : REQUIRED_COLUMNS.filter
        (fun kv => cols.all (fun c => normHeader c != kv.1)) ≠ []) :
    _normalize_columns ⟨cols, rows⟩ = .error (.valueError
      ("Faltan las siguientes columnas en el archivo: " ++
        String.intercalate ", "
          ((REQUIRED_COLUMNS.filter
            (fun kv => cols.all (fun c => normHeader c != kv.1))).map
              (fun kv => kv.2)))) := by
  have hfe : REQUIRED_COLUMNS.filter
        (fun kv => (normalizedMap cols kv.1).isNone) =
      REQUIRED_COLUMNS.filter
        (fun kv => cols.all (fun c => normHeader c != kv.1)) := by
    apply List.filter_congr
    intro kv hkv
    cases hcase : cols.all (fun c => normHeader c != kv.1) with
    | true =>
      apply (normalizedMap_isNone_iff cols kv.1).mpr
      intro c hc
      have := List.all_eq_true.mp hcase c hc
      simpa using this
    | false =>
      apply Bool.eq_false_iff.mpr
      intro hh
      have hall := (normalizedMap_isNone_iff cols kv.1).mp hh
      have : ∃ c ∈ cols, ¬ (normHeader c != kv.1) = true := by
        by_contra hcon
        push_neg at hcon
        exact absurd (List.all_eq_true.mpr hcon) (by rw [hcase]; intro hx; exact Bool.noConfusion hx)
      obtain ⟨c, hc, hne⟩ := this
      simp only [bne_iff_ne, ne_eq, not_not] at hne
      exact hall c hc hne
  simp only [_normalize_columns]
  rw [hfe]
  rw [if_neg (by
    intro hx
    exact hmiss (List.isEmpty_iff.mp hx))]

/-- Witness for C5: headers resolving only `number of persons` and
`day of check out` produce the message naming exactly `habitacion` and
`media_pension`, in that order. -/
theorem C5_witness :
    _normalize_columns ⟨["Number of Persons", " day of check out "],
        [[CellValue.num 1]]⟩ =
      .error (.valueError
        ("Faltan las siguientes columnas en el archivo: " ++
          String.intercalate ", " ["habitacion", "media_pension"])) := by
  have h := C5_missing_columns_message
    ["Number of Persons", " day of check out "] [[CellValue.num 1]]
    (by decide)
  rw [h]
  rfl

/-- Claim C10: For headers that are case and/or surrounding-whitespace
variants of the four recognized labels (`col.lower().strip()` recovers
each label), the resolver maps each canonical label to its variant header,
succeeds, and produces exactly the resolution of the canonical-case
headers: the renamed table is the same in both cases. -/
theorem C10_resolver_case_insensitive (v1 v2 v3 v4 : String)
    (rows : List (List CellValue))
    (h1 : normHeader v1 = "room number")
    (h2 : normHeader v2 = "number of persons")
    (h3 : normHeader v3 = "day of check out")
    (h4 : normHeader v4 = "half-board included?") :
    normalizedMap [v1, v2, v3, v4] "room number" = some v1 ∧
    normalizedMap [v1, v2, v3, v4] "number of persons" = some v2 ∧
    normalizedMap [v1, v2, v3, v4] "day of check out" = some v3 ∧
    normalizedMap [v1, v2, v3, v4] "half-board included?" = some v4 ∧
    _normalize_columns ⟨[v1, v2, v3, v4], rows⟩ =
      .ok ⟨["room number", "number of persons", "day of check out",
        "half-board included?"], rows⟩ ∧
    _normalize_columns ⟨[v1, v2, v3, v4], rows⟩ =
      _normalize_columns ⟨["room number", "number of persons",
        "day of check out", "half-board included?"], rows⟩ := by
  have n12 : v1 ≠ v2 := by
    intro hh; rw [← hh, h1] at h2; exact absurd h2 (by decide)
  have n13 : v1 ≠ v3 := by
    intro hh; rw [← hh, h1] at h3; exact absurd h3 (by decide)
  have n14 : v1 ≠ v4 := by
    intro hh; rw [← hh, h1] at h4; exact absurd h4 (by decide)
  have n23 : v2 ≠ v3 := by
    intro hh; rw [← hh, h2] at h3; exact absurd h3 (by decide)
  have n24 : v2 ≠ v4 := by
    intro hh; rw [← hh, h2] at h4; exact absurd h4 (by decide)
  have n34 : v3 ≠ v4 := by
    intro hh; rw [← hh, h3] at h4; exact absurd h4 (by decide)
  have m1 : normalizedMap [v1, v2, v3, v4] "room number" = some v1 := by
    simp [normalizedMap, List.filter, h1, h2, h3, h4]
  have m2 : normalizedMap [v1, v2, v3, v4] "number of persons" = some v2 := by
    simp [normalizedMap, List.filter, h1, h2, h3, h4]
  have m3 : normalizedMap [v1, v2, v3, v4] "day of check out" = some v3 := by
    simp [normalizedMap, List.filter, h1, h2, h3, h4]
  have m4 : normalizedMap [v1, v2, v3, v4] "half-board included?" = some v4 := by
    simp [normalizedMap, List.filter, h1, h2, h3, h4]
  have b12 : (v1 == v2) = false := beq_eq_false_iff_ne.mpr n12
  have b13 : (v1 == v3) = false := beq_eq_false_iff_ne.mpr n13
  have b14 : (v1 == v4) = false := beq_eq_false_iff_ne.mpr n14
  have b23 : (v2 == v3) = false := beq_eq_false_iff_ne.mpr n23
  have b24 : (v2 == v4) = false := beq_eq_false_iff_ne.mpr n24
  have b34 : (v3 == v4) = false := beq_eq_false_iff_ne.mpr n34
  have hmain : _normalize_columns ⟨[v1, v2, v3, v4], rows⟩ =
      .ok ⟨["room number", "number of persons", "day of check out",
        "half-board included?"], rows⟩ := by
    simp [_normalize_columns, REQUIRED_COLUMNS, m1, m2, m3, m4, renameCol,
      List.find?, b12, b13, b14, b23, b24, b34]
  refine ⟨m1, m2, m3, m4, hmain, ?_⟩
  rw [hmain]
  rfl

/-- Witness for C10: concrete case/whitespace variants of the four labels
resolve successfully and identically to the canonical-case headers. -/
theorem C10_witness :
    _normalize_columns ⟨[" Room NUMBER ", "NUMBER OF PERSONS",
        "Day Of Check Out", "  half-board INCLUDED?"], []⟩ =
      .ok ⟨["room number", "number of persons", "day of check out",
        "half-board included?"], []⟩ :=
  (C10_resolver_case_insensitive " Room NUMBER " "NUMBER OF PERSONS"
    "Day Of Check Out" "  half-board INCLUDED?" []
    (by decide) (by decide) (by decide) (by decide)).2.2.2.2.1
